import Mathlib

/-!
Verification of the Cockpit change-control pipeline.

This development shallowly embeds the change-control core of the
repository (kill switch, path sandbox, atomic writer, snapshotting,
change gate, explainer and the `apply_change` orchestrator) and proves
or refutes the behavioural claims stated about it.

Conventions of the embedding:
* machine text is `String`; character-level scans work on `String.data`;
* the filesystem is an association list from paths to file contents,
  read through `getFile` (later bindings shadow earlier ones);
* environment variables are `Option String` fields of a `World` record;
* out-of-scope collaborators (SHA-256, the positional diff, the symbol
  scanner, AES-GCM, the risk engine, the policy engine) are oracle
  fields of `World`: the pipeline only moves their outputs around, so
  the claims under proof do not depend on their internals;
* fallible syscalls are driven by explicit `Faults` flags so that every
  error path of the C++ code is a reachable branch of the model.
-/

namespace Cockpit

/-- ASCII alphanumeric test mirroring `std::isalnum` in the C locale,
as used by `change_gate.cpp` `word_count`. -/
def isAlnumChar (c : Char) : Bool :=
  (('0' ≤ c) && (c ≤ '9')) || (('a' ≤ c) && (c ≤ 'z')) || (('A' ≤ c) && (c ≤ 'Z'))

/-- The word-counting state machine of `change_gate.cpp` `word_count`:
a word is a maximal run of alphanumeric characters; the counter is
incremented when a run begins (`in_word` transitions false → true). -/
def wcAux : Bool → List Char → Nat
  | _, [] => 0
  | inWord, c :: rest =>
    if isAlnumChar c then
      if inWord then wcAux true rest else 1 + wcAux true rest
    else wcAux false rest

/-- The `in_word` state after scanning a character list, used to reason
about concatenations of text. -/
def finalInWord : Bool → List Char → Bool
  | b, [] => b
  | _, c :: rest => finalInWord (isAlnumChar c) rest

/-- `change_gate.cpp` `word_count`: number of maximal alphanumeric runs. -/
def word_count (s : String) : Nat := wcAux false s.data

/-- Minimal JSON value model covering what the gate and explainer
inspect: strings, arrays, objects, and a catch-all for every other
JSON type (numbers, booleans, null), which the gate treats uniformly
as "not a string / not an array". -/
inductive JsonVal where
  | jStr (s : String)
  | jArr (xs : List JsonVal)
  | jObj (fields : List (String × JsonVal))
  | jOther

/-- First-match lookup in a JSON object's field list. -/
def jLookup : List (String × JsonVal) → String → Option JsonVal
  | [], _ => none
  | (k, v) :: rest, key => if k = key then some v else jLookup rest key

/-- `j[key]` access combined with `j.contains(key)`: `none` when the
value is not an object or lacks the key. -/
def jGet (j : JsonVal) (key : String) : Option JsonVal :=
  match j with
  | .jObj fields => jLookup fields key
  | _ => none

/-- Collect the string elements of an array-valued field, as the gate
does for `added_defs` / `removed_defs` / `touched_symbols`: a missing
or non-array value contributes nothing, non-string elements are
skipped. -/
def jStrings : Option JsonVal → List String
  | some (.jArr xs) =>
      xs.filterMap (fun v => match v with | .jStr s => some s | _ => none)
  | _ => []

/-- One required-field check of `change_gate.cpp` `validate_explanation`:
a missing or non-string field yields `missing:<key>`; a string below
the word minimum yields `<key>_too_short`. -/
def fieldErrors (expl : JsonVal) (key : String) (minWords : Nat) : List String :=
  match jGet expl key with
  | some (.jStr v) => if word_count v < minWords then [key ++ "_too_short"] else []
  | some _ => ["missing:" ++ key]
  | none => ["missing:" ++ key]

/-- The `touched_symbols` presence check: it must be an array. -/
def touchedSymbolsErrors (expl : JsonVal) : List String :=
  match jGet expl "touched_symbols" with
  | some (.jArr _) => []
  | _ => ["missing:touched_symbols"]

/-- The symbol-accuracy rule: when the AST delta names any added or
removed definition, at least one of those names must appear in
`touched_symbols`, else `symbols_mismatch` is reported. -/
def symbolsMismatchErrors (expl delta : JsonVal) : List String :=
  let changed := jStrings (jGet delta "added_defs") ++ jStrings (jGet delta "removed_defs")
  if changed.isEmpty then []
  else
    let touched := jStrings (jGet expl "touched_symbols")
    if changed.any (fun c => touched.contains c) then [] else ["symbols_mismatch"]

/-- `change_gate.cpp` `validate_explanation`: the accumulated error
list; validation succeeds exactly when it is empty. -/
def validate_explanation (expl delta : JsonVal) : List String :=
  fieldErrors expl "why" 15 ++ fieldErrors expl "risk" 5 ++
  fieldErrors expl "backout" 5 ++ fieldErrors expl "tests" 1 ++
  touchedSymbolsErrors expl ++ symbolsMismatchErrors expl delta

/-- ASCII lower-casing of one character, mirroring `std::tolower` on
the byte range the code compares against. -/
def lowerChar (c : Char) : Char :=
  if ('A' ≤ c) && (c ≤ 'Z') then Char.ofNat (c.toNat + 32) else c

/-- ASCII lower-casing of a string (`std::transform` + `tolower`),
character by character. -/
def lowerStr (s : String) : String := String.mk (s.data.map lowerChar)

/-- `change_gate.cpp` `enforcement_mode`: reads `EXPLAIN_POLICY`
(modelled as the `Option String` argument), defaults to `strict`,
lower-cases, and falls back to `strict` on unrecognised values. -/
def enforcement_mode (explainPolicy : Option String) : String :=
  let value := lowerStr (explainPolicy.getD "strict")
  if value = "off" || value = "advisory" || value = "strict" then value
  else "strict"

/-- `substr(0, n)` of the C++ code, character by character. -/
def strTake (s : String) (n : Nat) : String := String.mk (s.data.take n)

/-! ## Audit report data and the explainer -/

/-- The fields of `change_audit::Report` that the pipeline reads or
writes.  `added_defs`/`removed_defs` are the string contents of the
`ast_delta` arrays computed by `compute_ast_delta` (the heuristic
symbol scanner itself is an out-of-scope collaborator, so its outputs
enter the model through a `World` oracle). -/
structure Report where
  ts : Nat
  file : String
  intent : String
  author : String
  old_sha256 : String
  new_sha256 : String
  diff : String
  diff_sha256 : String
  added_defs : List String
  removed_defs : List String
  explanation : JsonVal := .jObj []
  explanation_errors : List String := []
  key_id : String := ""
  nonce : String := ""
  tag : String := ""

/-- The JSON `ast_delta` object of a report, exactly as
`compute_ast_delta` shapes it (four keys, the call arrays always
empty) and as the gate consumes it. -/
def ast_delta_json (r : Report) : JsonVal :=
  .jObj [("added_defs", .jArr (r.added_defs.map .jStr)),
         ("removed_defs", .jArr (r.removed_defs.map .jStr)),
         ("added_calls", .jArr []),
         ("removed_calls", .jArr [])]

/-- Comma-joined name list, mirroring the explainer's accumulation
loop (`", "` between successive names). -/
def joinComma : List String → String
  | [] => ""
  | [x] => x
  | x :: y :: rest => x ++ ", " ++ joinComma (y :: rest)

/-- The explainer's capped name list: `"n/a"` for an empty list, else
the first six names joined by commas. -/
def cappedSix (names : List String) : String :=
  if names.isEmpty then "n/a" else joinComma (names.take 6)

/-- The fixed `risk` boilerplate sentence of `explainer.cpp`. -/
def riskBoilerplate : String :=
  "Behavioral regression, interface mismatch, latency increase, and security side effects on new code paths."

/-- The fixed `backout` boilerplate sentence of `explainer.cpp`. -/
def backoutBoilerplate : String :=
  "Restore snapshot file and redeploy previous build; revert changes if issues occur."

/-- The fixed `tests` boilerplate sentence of `explainer.cpp`. -/
def testsBoilerplate : String :=
  "Unit tests for new/changed symbols; smoke test for impacted components; compare outputs to golden file."

/-- The `why` sentence synthesised by `explainer.cpp`: cites the
intent, the capped added/removed name lists, the first 12 characters
of the diff hash and the file name. -/
def explainerWhy (r : Report) : String :=
  "Implement intent: " ++ r.intent ++ ". Added defs: " ++ cappedSix r.added_defs
    ++ ". Removed defs: " ++ cappedSix r.removed_defs ++ ". Diff hash "
    ++ strTake r.diff_sha256 12 ++ " for file " ++ r.file
    ++ ". Update aligns with described behaviour."

/-- The `touched_symbols` list synthesised by `explainer.cpp`: added
names first, then removed names, capped at 12 in total. -/
def explainerTouched (r : Report) : List String :=
  r.added_defs.take 12 ++ r.removed_defs.take (12 - min r.added_defs.length 12)

/-- `explainer.cpp` `generate_explanation`: the deterministic
explanation object, including the provenance block. -/
def generate_explanation (r : Report) : JsonVal :=
  .jObj [("why", .jStr (explainerWhy r)),
         ("risk", .jStr riskBoilerplate),
         ("backout", .jStr backoutBoilerplate),
         ("tests", .jStr testsBoilerplate),
         ("touched_symbols", .jArr ((explainerTouched r).map .jStr)),
         ("provenance", .jObj [("mode", .jStr "rule"),
                               ("provider", .jStr "none"),
                               ("model", .jStr "")])]

/-! ## Filesystem model -/

/-- The filesystem as an association list from paths to byte contents;
later bindings shadow earlier ones.  Directories are not modelled
(creation of parent directories has no observable file-level effect). -/
def FS : Type := List (String × String)

instance : DecidableEq FS := by unfold FS; infer_instance

/-- Content of a file, `none` when it does not exist. -/
def getFile (fs : FS) (p : String) : Option String :=
  match fs with
  | [] => none
  | (q, c) :: rest => if q = p then some c else getFile rest p

/-- Create or replace a file. -/
def setFile (fs : FS) (p c : String) : FS := (p, c) :: fs

/-- Unlink a file. -/
def removeFile (fs : FS) (p : String) : FS :=
  match fs with
  | [] => []
  | (q, c) :: rest => if q = p then removeFile rest p else (q, c) :: removeFile rest p

/-! ## Fault injection -/

/-- One flag per fallible syscall of the pipeline, so that every error
branch of the C++ code is a reachable branch of the model.
`writeFailData` is the prefix the failing `write` loop managed to put
into the temporary file before the fault. -/
structure Faults where
  lockOpenFail : Bool := false
  flockFail : Bool := false
  snapshotCopyFail : Bool := false
  encryptFail : Bool := false
  mkstempFail : Bool := false
  chmodFail : Bool := false
  writeFail : Bool := false
  writeFailData : String := ""
  fsyncFail : Bool := false
  renameFail : Bool := false
  persistFail : Bool := false

/-! ## Atomic writer (`self_writer.cpp` `write_atomic`) -/

/-- `self_writer.cpp` `write_atomic`: create a uniquely named temporary
file in the target's directory (`mkstemp`, modelled by the caller
supplying the fresh name `tmp`), `fchmod` it, write the content in a
short-write/`EINTR`-safe loop, `fsync`, `rename` onto the target, and
`fsync` the directory (no file-level effect).  Every failure branch
unlinks the temporary file before reporting the error.  Returns the
resulting filesystem and `none` on success or `some message` on
failure.  (The source function's first `.tmp_write` attempt is
merge-damaged in the file — its success continuation is spliced into
`snapshot_file` — and on any write error it falls into this complete
`mkstemp`-based implementation, which is what is embedded here.) -/
def write_atomic (fs : FS) (path content tmp : String) (f : Faults) :
    FS × Option String :=
  if f.mkstempFail then
    (fs, some "Failed to create temporary file in target directory")
  else
    let fs1 := setFile fs tmp ""
    if f.chmodFail then
      (removeFile fs1 tmp, some "Failed to set permissions on temporary file")
    else if f.writeFail then
      (removeFile (setFile fs1 tmp f.writeFailData) tmp, some "Write to temporary file failed")
    else
      let fs2 := setFile fs1 tmp content
      if f.fsyncFail then
        (removeFile fs2 tmp, some "fsync on temporary file failed")
      else if f.renameFail then
        (removeFile fs2 tmp, some "Failed to rename temporary file into place")
      else
        (setFile (removeFile fs2 tmp) path content, none)

/-! ## Kill switch (`kill.cpp`) -/

/-- The environment and process context `apply_change` runs in.
Out-of-scope collaborators appear as oracle fields: `sha` (OpenSSL
SHA-256), `diffOf` (the positional line diff), `deltaOf` (the
heuristic symbol scanner: added and removed definition names),
`cipher` (the AES-256-GCM ciphertext of a snapshot, with `keyId`,
`nonceHex`, `tagHex` its recorded metadata), `renderReport` (JSON
serialisation of a report), `risk` (the FDQC risk engine verdict) and
`moral` (the policy engine decision).  `tmpSuffix` is the unique
suffix `mkstemp` chooses, and `snapshotEncrypt` states that
`SNAPSHOT_KEY_HEX` is set and decodes to a valid 32-byte key. -/
structure RiskResult where
  recommend_allow : Bool := true
  reasoning : String := ""

/-- The policy engine's decision (`moral_core::choose`; the reference
implementation always returns `block = false`). -/
structure MoralDecision where
  block : Bool := false
  reason : String := ""

structure World where
  cockpitEvolve : Option String := none
  sentinelExists : Bool := false
  autoExplain : Option String := none
  requireExplanation : Option String := none
  explainPolicy : Option String := none
  changeLogDir : Option String := none
  snapshotEncrypt : Bool := false
  cipher : String → String := fun s => s
  keyId : String := ""
  nonceHex : String := ""
  tagHex : String := ""
  pid : String := "0"
  now : Nat := 0
  tmpSuffix : String := "abc123"
  sha : String → String := fun _ => ""
  diffOf : String → String → String := fun _ _ => ""
  deltaOf : String → String → List String × List String := fun _ _ => ([], [])
  renderReport : Report → String := fun _ => ""
  risk : RiskResult := {}
  moral : MoralDecision := {}

/-- `kill.cpp` `is_tripped`: tripped when `COCKPIT_EVOLVE` is exactly
`"off"`, or the sentinel file exists (`sentinelExists` models the
existence check at the configured sentinel path). -/
def is_tripped (w : World) : Bool :=
  (w.cockpitEvolve == some "off") || w.sentinelExists

/-! ## Path sandbox (`self_writer.cpp` `validate_path`) -/

/-- The distinguishable sandbox violations `validate_path` throws. -/
inductive PathError where
  | emptyPath
  | absolutePath
  | traversal
  | canonFail
  | outsideRoot
  | symlinkComp
deriving DecidableEq

/-- A candidate path together with the filesystem facts `validate_path`
queries about it: `comps` is its `std::filesystem` component
decomposition, `isAbsolute` its absoluteness, `resolve` the result of
`weakly_canonical(canonical_root / p)` expressed relative to the
canonical root (`none` models a canonicalisation error), and `symlink`
says whether the given component prefix beneath the root is a symbolic
link. -/
structure PathArg where
  raw : String
  isAbsolute : Bool := false
  comps : List String := []
  resolve : Option (List String) := none
  symlink : List String → Bool := fun _ => false

/-- Whether the relative resolved path escapes the root: its native
string starts with `".."` (equivalently, its first component does). -/
def relEscapes (rel : List String) : Bool :=
  match rel with
  | [] => false
  | c :: _ => "..".data.isPrefixOf c.data

/-- The nonempty component prefixes of a resolved path, the `cur`
values of the symlink-scan loop. -/
def prefixesNE (l : List String) : List (List String) :=
  (List.range l.length).map (fun i => l.take (i + 1))

/-- `self_writer.cpp` `validate_path`: reject empty and absolute paths
and `.`/`..` components, canonicalise, require the result to be a
lexical descendant of the allowed root, and reject any symlinked
component beneath the root.  (The `openat2`-based re-resolution is
guarded by `#ifdef SYS_openat2`, whose defining header this
translation unit does not include, and is subsumed by the same
descendant/symlink facts.) -/
def validate_path (p : PathArg) : Except PathError Unit :=
  if p.raw = "" then .error .emptyPath
  else if p.isAbsolute then .error .absolutePath
  else if p.comps.any (fun c => c == ".." || c == ".") then .error .traversal
  else
    match p.resolve with
    | none => .error .canonFail
    | some rel =>
      if rel.isEmpty then .error .outsideRoot
      else if relEscapes rel then .error .outsideRoot
      else if (prefixesNE rel).any p.symlink then .error .symlinkComp
      else .ok ()

/-! ## Snapshots (`self_writer.cpp` `snapshot_file`) -/

/-- `std::filesystem::path::filename()` of a path string: the part
after the last separator. -/
def splitSlashAux : List Char → List Char → List (List Char)
  | [], acc => [acc.reverse]
  | c :: rest, acc =>
    if c = '/' then acc.reverse :: splitSlashAux rest []
    else splitSlashAux rest (c :: acc)

def lastComponent (s : String) : String :=
  String.mk ((splitSlashAux s.data []).getLastD [])

/-- The snapshot destination built by `snapshot_file`:
`<snap_dir>/<filename>.<pid>.bak`. -/
def snapshot_dst (snapDir base pid : String) : String :=
  snapDir ++ "/" ++ base ++ "." ++ pid ++ ".bak"

/-- `self_writer.cpp` `snapshot_file`: copy the source file to
`<snap_dir>/<filename>.<pid>.bak` with
`copy_options::overwrite_existing`, returning the destination path.
The head of this function is lost to merge damage in the source file;
the missing-source case is modelled from the spec: "snapshot_path
(may be empty if the file did not previously exist)", so a
non-existent source yields an empty snapshot path and no copy.
`copyFail` injects a `copy_file` failure (an `IoError`). -/
def snapshot_file (fs : FS) (src snapDir pid : String) (copyFail : Bool) :
    Except String (FS × String) :=
  match getFile fs src with
  | none => .ok (fs, "")
  | some content =>
    if copyFail then .error "snapshot copy_file failed"
    else
      let dst := snapshot_dst snapDir (lastComponent src) pid
      .ok (setFile fs dst content, dst)

/-! ## Report building and persistence (`change_audit.cpp`) -/

/-- `change_audit::build_report`: timestamp, path, intent, author, the
three SHA-256 hashes (old, new, diff), the diff text, and the symbol
delta; the hash, diff and symbol-scanner algorithms are out-of-scope
collaborators supplied by `World` oracles. -/
def build_report (w : World) (path oldContent newContent author intent : String) :
    Report :=
  { ts := w.now
    file := path
    intent := intent
    author := author
    old_sha256 := w.sha oldContent
    new_sha256 := w.sha newContent
    diff := w.diffOf oldContent newContent
    diff_sha256 := w.sha (w.diffOf oldContent newContent)
    added_defs := (w.deltaOf oldContent newContent).1
    removed_defs := (w.deltaOf oldContent newContent).2 }

/-- The report identifier of `change_audit::save_report`:
`<ts>_<base filename>_<first 12 chars of diff hash>`. -/
def report_id (r : Report) : String :=
  toString r.ts ++ "_" ++ lastComponent r.file ++ "_" ++ strTake r.diff_sha256 12

/-- The report file path `<out_dir>/<report_id>.json`. -/
def report_path (outDir : String) (r : Report) : String :=
  outDir ++ "/" ++ report_id r ++ ".json"

/-- `change_audit::save_report`: serialise the report (signing and the
optional relational mirror are best-effort and swallowed by the code)
and write `<out_dir>/<report_id>.json`; returns the report id. -/
def save_report (w : World) (fs : FS) (r : Report) (outDir : String) :
    FS × String :=
  (setFile fs (report_path outDir r) (w.renderReport r), report_id r)

/-! ## The orchestrator (`self_writer.cpp` `apply_change`) -/

/-- The distinguishable errors `apply_change` surfaces (each a
distinct `std::runtime_error` message family in the code). -/
inductive AppError where
  | halted
  | sandbox (e : PathError)
  | riskRejected (reasoning : String)
  | policyRejected (reason : String)
  | gateReject (errs : List String)
  | ioError (msg : String)
deriving DecidableEq

/-- `self_writer::ApplyResult`. -/
structure ApplyResult where
  report_id : String
  snapshot : String
  new_sha256 : String
deriving DecidableEq

/-- The mutable per-process pipeline state: the filesystem, whether
the static cross-process lock file descriptor has been opened
(`lock_fd >= 0`), whether the advisory file lock is held, and whether
the in-process mutex is held. -/
structure PState where
  fs : FS
  lockFdValid : Bool := false
  fileLockHeld : Bool := false
  mutexHeld : Bool := false
deriving DecidableEq

/-- Whether `AUTO_EXPLAIN` forces auto-explanation (`on`/`true`/`1`,
case-insensitively). -/
def autoExplainOn (w : World) : Bool :=
  match w.autoExplain with
  | some v => lowerStr v == "on" || lowerStr v == "true" || lowerStr v == "1"
  | none => false

/-- Steps 1–6 of `self_writer.cpp` `apply_change` (kill switch, path
validation, read, report build, risk evaluation, moral pre-gate,
explanation selection, change-gate enforcement): the stages before any
lock or filesystem mutation.  Returns the gated report or the typed
error the corresponding `throw` raises. -/
def plan_change (w : World) (p : PathArg) (newContent author intent : String)
    (explanation : Option JsonVal) (fs : FS) : Except AppError Report :=
  -- Step 1: kill switch guard.
  if is_tripped w then .error .halted
  else
    match validate_path p with
    | .error e => .error (.sandbox e)
    | .ok _ =>
      -- Step 2: read old contents (missing file reads as empty).
      let oldContent := (getFile fs p.raw).getD ""
      -- Step 3: build report.
      let report := build_report w p.raw oldContent newContent author intent
      -- Step 3.5: FDQC risk evaluation.
      if w.risk.recommend_allow = false then .error (.riskRejected w.risk.reasoning)
      -- Step 4: moral core pre-gate.
      else if w.moral.block then .error (.policyRejected w.moral.reason)
      else
        -- Step 5: generate or accept explanation.
        let expl :=
          match explanation with
          | none => generate_explanation report
          | some e => if autoExplainOn w then generate_explanation report else e
        -- Step 6: change gate enforcement.
        let requireExpl := lowerStr ((w.requireExplanation).getD "on")
        if requireExpl = "on" then
          let errs := validate_explanation expl (ast_delta_json report)
          if errs ≠ [] ∧ enforcement_mode w.explainPolicy = "strict" then
            .error (.gateReject errs)
          else .ok { report with explanation := expl, explanation_errors := errs }
        else .ok { report with explanation := expl }

/-- Steps 8–9 of `self_writer.cpp` `apply_change` (atomic write,
report persistence, lock release), entered with the snapshot taken
and the cross-process lock held when `lockValid`.  A write or
persistence failure propagates with `fileLockHeld` left at the
acquisition value — the code has no `flock(LOCK_UN)` on these paths;
the release happens only after successful persistence. -/
def commit_write (w : World) (raw newContent changeDir : String) (fs2 : FS)
    (snap : String) (report2 : Report) (flt : Faults) (lockValid : Bool) :
    Except AppError ApplyResult × PState :=
  -- Step 8: atomic write.
  let tmp := raw ++ "." ++ w.tmpSuffix
  let write := write_atomic fs2 raw newContent tmp flt
  match write.2 with
  | some m =>
    (.error (.ioError m),
     { fs := write.1, lockFdValid := lockValid, fileLockHeld := lockValid, mutexHeld := false })
  | none =>
    -- Step 9: persist report (create_directories may throw).
    if flt.persistFail then
      (.error (.ioError "Failed to create report directory"),
       { fs := write.1, lockFdValid := lockValid, fileLockHeld := lockValid, mutexHeld := false })
    else
      let saved := save_report w write.1 report2 changeDir
      -- Release the cross-process lock and return.
      (.ok { report_id := saved.2, snapshot := snap, new_sha256 := report2.new_sha256 },
       { fs := saved.1, lockFdValid := lockValid, fileLockHeld := false, mutexHeld := false })

/-- Step 7 of `self_writer.cpp` `apply_change` plus the lock phase
(lazy lock-file initialisation, `flock`, snapshot) feeding
`commit_write`.  Each return site writes the lock fields exactly as
the code leaves them: the `flock` is released only on the success path
inside `commit_write`, so every error after acquisition leaves
`fileLockHeld` at the acquisition value. -/
def commit_change (w : World) (raw newContent oldContent : String) (report1 : Report)
    (flt : Faults) (st : PState) : Except AppError ApplyResult × PState :=
  let changeDir := (w.changeLogDir).getD "logs/changes"
  let snapDir := changeDir ++ "/snapshots"
  let lockPath := changeDir ++ "/apply.lock"
  -- Lazy lock-file initialisation (`O_CREAT`, failure ignored).
  let init : FS × Bool :=
    if st.lockFdValid then (st.fs, true)
    else if flt.lockOpenFail then (st.fs, false)
    else if getFile st.fs lockPath = none then (setFile st.fs lockPath "", true)
    else (st.fs, true)
  let fs1 := init.1
  let lockValid := init.2
  -- Acquire the cross-process lock (skipped when lock_fd < 0).
  if lockValid ∧ flt.flockFail then
    (.error (.ioError "Failed to acquire cross-process lock"),
     { fs := fs1, lockFdValid := lockValid, fileLockHeld := false, mutexHeld := false })
  else
    -- Step 7: snapshot (encrypted when a valid SNAPSHOT_KEY_HEX is
    -- configured and the old content is nonempty; an encryption
    -- failure removes the partial ciphertext and falls back to the
    -- plaintext copy).
    if w.snapshotEncrypt ∧ oldContent ≠ "" ∧ flt.encryptFail = false then
      commit_write w raw newContent changeDir
        (setFile fs1 (snapDir ++ "/" ++ lastComponent raw ++ "." ++ w.pid ++ ".enc")
          (w.cipher oldContent))
        (snapDir ++ "/" ++ lastComponent raw ++ "." ++ w.pid ++ ".enc")
        { report1 with key_id := w.keyId, nonce := w.nonceHex, tag := w.tagHex }
        flt lockValid
    else
      match snapshot_file fs1 raw snapDir w.pid flt.snapshotCopyFail with
      | .error m =>
        (.error (.ioError m),
         { fs := fs1, lockFdValid := lockValid, fileLockHeld := lockValid, mutexHeld := false })
      | .ok (fs2, snap) =>
        commit_write w raw newContent changeDir fs2 snap report1 flt lockValid

/-- `self_writer.cpp` `apply_change`: the full pipeline, sequencing
the pre-lock stages (`plan_change`) and the locked commit phase
(`commit_change`).  The `lock_guard` on the in-process mutex is
modelled by setting `mutexHeld` on entry and clearing it at every
return site (each return/throw of the C++ code runs the destructor).
A pre-lock failure returns the caller's filesystem untouched. -/
def apply_change (w : World) (p : PathArg) (newContent author intent : String)
    (explanation : Option JsonVal) (flt : Faults) (st0 : PState) :
    Except AppError ApplyResult × PState :=
  let st := { st0 with mutexHeld := true }
  match plan_change w p newContent author intent explanation st.fs with
  | .error e => (.error e, { st with mutexHeld := false })
  | .ok report1 =>
    commit_change w p.raw newContent ((getFile st.fs p.raw).getD "") report1 flt st

/-! ## Helper lemmas -/

theorem getFile_setFile (fs : FS) (p c q : String) :
    getFile (setFile fs p c) q = if p = q then some c else getFile fs q := by
  simp [getFile, setFile]

theorem getFile_removeFile (fs : FS) (p q : String) :
    getFile (removeFile fs p) q = if p = q then none else getFile fs q := by
  induction fs with
  | nil => simp [removeFile, getFile]
  | cons e rest ih =>
    by_cases h1 : e.1 = p
    · by_cases h2 : p = q
      · simp only [removeFile, getFile, if_pos h1, ih, if_pos h2]
      · have he : ¬ e.1 = q := fun hh => h2 (h1.symm.trans hh)
        simp only [removeFile, getFile, if_pos h1, ih, if_neg h2, if_neg he]
    · by_cases h2 : e.1 = q
      · have hpq : ¬ p = q := fun hh => h1 (h2.trans hh.symm)
        simp only [removeFile, getFile, if_neg h1, if_pos h2, if_neg hpq]
      · simp only [removeFile, getFile, if_neg h1, if_neg h2, ih]

theorem wcAux_append (l1 l2 : List Char) (b : Bool) :
    wcAux b (l1 ++ l2) = wcAux b l1 + wcAux (finalInWord b l1) l2 := by
  induction l1 generalizing b with
  | nil => simp [wcAux, finalInWord]
  | cons c rest ih =>
    by_cases h : isAlnumChar c = true
    · cases b
      all_goals simp [wcAux, finalInWord, h, ih]
      all_goals omega
    · have h' : isAlnumChar c = false := by
        cases hh : isAlnumChar c
        · rfl
        · exact absurd hh h
      cases b
      · simp [wcAux, finalInWord, h', ih]
      · simp [wcAux, finalInWord, h', ih]

theorem wcAux_head_nonalnum (c : Char) (l : List Char) (b b' : Bool)
    (h : isAlnumChar c = false) : wcAux b (c :: l) = wcAux b' (c :: l) := by
  simp [wcAux, h]

theorem finalInWord_head (c : Char) (l : List Char) (b b' : Bool) :
    finalInWord b (c :: l) = finalInWord b' (c :: l) := by
  simp [finalInWord]

theorem mem_fieldErrors (expl : JsonVal) (key : String) (m : Nat) (e : String)
    (he : e ∈ fieldErrors expl key m) :
    e = "missing:" ++ key ∨ e = key ++ "_too_short" := by
  unfold fieldErrors at he
  rcases hg : jGet expl key with _ | v
  · rw [hg] at he; simp at he; left; exact he
  · rw [hg] at he
    cases v with
    | jStr s =>
      simp only at he
      by_cases hw : word_count s < m
      · simp [hw] at he; right; exact he
      · simp [hw] at he
    | jArr xs => simp at he; left; exact he
    | jObj fields => simp at he; left; exact he
    | jOther => simp at he; left; exact he

theorem mem_touchedSymbolsErrors (expl : JsonVal) (e : String)
    (he : e ∈ touchedSymbolsErrors expl) : e = "missing:touched_symbols" := by
  unfold touchedSymbolsErrors at he
  rcases hg : jGet expl "touched_symbols" with _ | v
  · rw [hg] at he; simp at he; exact he
  · rw [hg] at he
    cases v <;> simp at he <;> exact he

theorem jStrings_map_jStr (l : List String) :
    jStrings (some (.jArr (l.map .jStr))) = l := by
  induction l with
  | nil => simp [jStrings]
  | cons x xs ih =>
    simp only [jStrings, List.map, List.filterMap] at ih ⊢
    simp [ih]

/-! ## C10: enforcement mode is total and fail-closed -/

/-- C10: `enforcement_mode` always returns one of `strict`, `advisory`
or `off`; it returns `strict` when `EXPLAIN_POLICY` is unset; and on
any set value it matches `off`/`advisory` case-insensitively and
returns `strict` for everything else (in particular for every
unrecognised value). -/
theorem enforcement_mode_total_fail_closed (e : Option String) :
    (enforcement_mode e = "strict" ∨ enforcement_mode e = "advisory" ∨
      enforcement_mode e = "off")
    ∧ enforcement_mode none = "strict"
    ∧ (∀ s, e = some s →
        enforcement_mode e =
          (if lowerStr s = "off" then "off"
           else if lowerStr s = "advisory" then "advisory"
           else "strict")) := by
  refine ⟨?_, by decide, ?_⟩
  · cases e with
    | none => left; decide
    | some s =>
      by_cases h1 : lowerStr s = "off"
      · right; right; simp [enforcement_mode, h1]
      · by_cases h2 : lowerStr s = "advisory"
        · right; left; simp [enforcement_mode, h1, h2]
        · by_cases h3 : lowerStr s = "strict"
          · left; simp [enforcement_mode, h1, h2, h3]
          · left; simp [enforcement_mode, h1, h2, h3]
  · intro s hs
    subst hs
    by_cases h1 : lowerStr s = "off"
    · simp [enforcement_mode, h1]
    · by_cases h2 : lowerStr s = "advisory"
      · simp [enforcement_mode, h1, h2]
      · by_cases h3 : lowerStr s = "strict"
        · simp [enforcement_mode, h1, h2, h3]
        · simp [enforcement_mode, h1, h2, h3]

/-- Witness for C10 at concrete inputs: a mixed-case recognised value
maps to its lower case, and an unrecognised value falls back to
`strict`. -/
theorem enforcement_mode_total_fail_closed_check :
    enforcement_mode (some "ADVISORY") = "advisory" ∧
    enforcement_mode (some "lenient") = "strict" := by
  constructor
  · have h := (enforcement_mode_total_fail_closed (some "ADVISORY")).2.2 "ADVISORY" rfl
    rw [h]; decide
  · have h := (enforcement_mode_total_fail_closed (some "lenient")).2.2 "lenient" rfl
    rw [h]; decide

/-! ## C6: word-count thresholds of the gate -/

/-- C6: gate validation demands `why`/`risk`/`backout`/`tests` as
strings of at least 15/5/5/1 words (word = maximal alphanumeric run):
with all other fields satisfied and an empty symbol delta, a 14-word
`why` fails validation and a 15-word (or longer) `why` passes. -/
theorem gate_word_count_thresholds (expl delta : JsonVal) (w : String)
    (hwhy : jGet expl "why" = some (.jStr w))
    (hrisk : ∃ r, jGet expl "risk" = some (.jStr r) ∧ 5 ≤ word_count r)
    (hback : ∃ b, jGet expl "backout" = some (.jStr b) ∧ 5 ≤ word_count b)
    (htests : ∃ t, jGet expl "tests" = some (.jStr t) ∧ 1 ≤ word_count t)
    (htouch : ∃ xs, jGet expl "touched_symbols" = some (.jArr xs))
    (hadd : jStrings (jGet delta "added_defs") = [])
    (hrem : jStrings (jGet delta "removed_defs") = []) :
    (word_count w = 14 → validate_explanation expl delta ≠ []) ∧
    (15 ≤ word_count w → validate_explanation expl delta = []) := by
  obtain ⟨r, hr, hrc⟩ := hrisk
  obtain ⟨b, hb, hbc⟩ := hback
  obtain ⟨t, ht, htc⟩ := htests
  obtain ⟨xs, hx⟩ := htouch
  have hfr : fieldErrors expl "risk" 5 = [] := by
    simp only [fieldErrors, hr]
    rw [if_neg (by omega)]
  have hfb : fieldErrors expl "backout" 5 = [] := by
    simp only [fieldErrors, hb]
    rw [if_neg (by omega)]
  have hft : fieldErrors expl "tests" 1 = [] := by
    simp only [fieldErrors, ht]
    rw [if_neg (by omega)]
  have hto : touchedSymbolsErrors expl = [] := by
    simp only [touchedSymbolsErrors, hx]
  have hsm : symbolsMismatchErrors expl delta = [] := by
    simp only [symbolsMismatchErrors, hadd, hrem]
    simp
  constructor
  · intro h14
    have hfw : fieldErrors expl "why" 15 = ["why_too_short"] := by
      simp only [fieldErrors, hwhy]
      rw [if_pos (by omega)]
      decide
    simp [validate_explanation, hfw, hfr, hfb, hft, hto, hsm]
  · intro h15
    have hfw : fieldErrors expl "why" 15 = [] := by
      simp only [fieldErrors, hwhy]
      rw [if_neg (by omega)]
    simp [validate_explanation, hfw, hfr, hfb, hft, hto, hsm]

/-- Witness for C6 at a concrete explanation: the same object with a
14-word `why` fails and with a 15-word `why` passes, given an empty
symbol delta. -/
theorem gate_word_count_thresholds_check :
    validate_explanation
      (.jObj [("why", .jStr "alpha beta gamma delta epsilon zeta eta theta iota kappa lambda mu nu xi"),
              ("risk", .jStr "one two three four five"),
              ("backout", .jStr "undo redo roll back now"),
              ("tests", .jStr "smoke"),
              ("touched_symbols", .jArr [])])
      (.jObj [("added_defs", .jArr []), ("removed_defs", .jArr [])]) ≠ [] ∧
    validate_explanation
      (.jObj [("why", .jStr "alpha beta gamma delta epsilon zeta eta theta iota kappa lambda mu nu xi omicron"),
              ("risk", .jStr "one two three four five"),
              ("backout", .jStr "undo redo roll back now"),
              ("tests", .jStr "smoke"),
              ("touched_symbols", .jArr [])])
      (.jObj [("added_defs", .jArr []), ("removed_defs", .jArr [])]) = [] := by
  constructor
  · exact (gate_word_count_thresholds
      (.jObj [("why", .jStr "alpha beta gamma delta epsilon zeta eta theta iota kappa lambda mu nu xi"),
              ("risk", .jStr "one two three four five"),
              ("backout", .jStr "undo redo roll back now"),
              ("tests", .jStr "smoke"),
              ("touched_symbols", .jArr [])])
      (.jObj [("added_defs", .jArr []), ("removed_defs", .jArr [])])
      "alpha beta gamma delta epsilon zeta eta theta iota kappa lambda mu nu xi"
      rfl
      ⟨"one two three four five", rfl, by decide⟩
      ⟨"undo redo roll back now", rfl, by decide⟩
      ⟨"smoke", rfl, by decide⟩
      ⟨[], rfl⟩ (by decide) (by decide)).1 (by decide)
  · exact (gate_word_count_thresholds
      (.jObj [("why", .jStr "alpha beta gamma delta epsilon zeta eta theta iota kappa lambda mu nu xi omicron"),
              ("risk", .jStr "one two three four five"),
              ("backout", .jStr "undo redo roll back now"),
              ("tests", .jStr "smoke"),
              ("touched_symbols", .jArr [])])
      (.jObj [("added_defs", .jArr []), ("removed_defs", .jArr [])])
      "alpha beta gamma delta epsilon zeta eta theta iota kappa lambda mu nu xi omicron"
      rfl
      ⟨"one two three four five", rfl, by decide⟩
      ⟨"undo redo roll back now", rfl, by decide⟩
      ⟨"smoke", rfl, by decide⟩
      ⟨[], rfl⟩ (by decide) (by decide)).2 (by decide)

/-! ## C7: the symbol-accuracy rule of the gate -/

/-- C7: when the symbol delta names at least one added or removed
definition and none of those names appears in `touched_symbols`,
validation reports `symbols_mismatch`; when at least one delta name
appears in `touched_symbols`, no `symbols_mismatch` error is
reported. -/
theorem gate_symbols_mismatch_rule (expl delta : JsonVal) :
    ((jStrings (jGet delta "added_defs") ++ jStrings (jGet delta "removed_defs")) ≠ [] →
      (∀ c ∈ jStrings (jGet delta "added_defs") ++ jStrings (jGet delta "removed_defs"),
        c ∉ jStrings (jGet expl "touched_symbols")) →
      "symbols_mismatch" ∈ validate_explanation expl delta) ∧
    ((∃ c ∈ jStrings (jGet delta "added_defs") ++ jStrings (jGet delta "removed_defs"),
        c ∈ jStrings (jGet expl "touched_symbols")) →
      "symbols_mismatch" ∉ validate_explanation expl delta) := by
  constructor
  · intro hne hnone
    have hch : (jStrings (jGet delta "added_defs") ++ jStrings (jGet delta "removed_defs")).isEmpty = false := by
      cases hl : jStrings (jGet delta "added_defs") ++ jStrings (jGet delta "removed_defs") with
      | nil => exact absurd hl hne
      | cons a as => rfl
    have hany : (jStrings (jGet delta "added_defs") ++ jStrings (jGet delta "removed_defs")).any
        (fun c => (jStrings (jGet expl "touched_symbols")).contains c) = false := by
      cases hres : (jStrings (jGet delta "added_defs") ++ jStrings (jGet delta "removed_defs")).any
          (fun c => (jStrings (jGet expl "touched_symbols")).contains c) with
      | false => rfl
      | true =>
        obtain ⟨c, hc, hcont⟩ := List.any_eq_true.mp hres
        have : c ∈ jStrings (jGet expl "touched_symbols") := by
          simpa [List.contains] using hcont
        exact absurd this (hnone c hc)
    have hsm : symbolsMismatchErrors expl delta = ["symbols_mismatch"] := by
      simp only [symbolsMismatchErrors, hch, hany]
      simp
    simp [validate_explanation, hsm]
  · rintro ⟨c, hc, htc⟩
    have hch : (jStrings (jGet delta "added_defs") ++ jStrings (jGet delta "removed_defs")).isEmpty = false := by
      cases hl : jStrings (jGet delta "added_defs") ++ jStrings (jGet delta "removed_defs") with
      | nil => rw [hl] at hc; simp at hc
      | cons a as => rfl
    have hany : (jStrings (jGet delta "added_defs") ++ jStrings (jGet delta "removed_defs")).any
        (fun c => (jStrings (jGet expl "touched_symbols")).contains c) = true := by
      refine List.any_eq_true.mpr ⟨c, hc, ?_⟩
      simpa [List.contains] using htc
    have hsm : symbolsMismatchErrors expl delta = [] := by
      simp only [symbolsMismatchErrors, hch, hany]
      simp
    intro habs
    unfold validate_explanation at habs
    rcases List.mem_append.mp habs with h | h
    · rcases List.mem_append.mp h with h | h
      · rcases List.mem_append.mp h with h | h
        · rcases List.mem_append.mp h with h | h
          · rcases List.mem_append.mp h with h | h
            · rcases mem_fieldErrors _ _ _ _ h with he | he
              · exact absurd he (by decide)
              · exact absurd he (by decide)
            · rcases mem_fieldErrors _ _ _ _ h with he | he
              · exact absurd he (by decide)
              · exact absurd he (by decide)
          · rcases mem_fieldErrors _ _ _ _ h with he | he
            · exact absurd he (by decide)
            · exact absurd he (by decide)
        · rcases mem_fieldErrors _ _ _ _ h with he | he
          · exact absurd he (by decide)
          · exact absurd he (by decide)
      · exact absurd (mem_touchedSymbolsErrors _ _ h) (by decide)
    · rw [hsm] at h
      simp at h

/-- Witness for C7 at the spec's own example: `added_defs = ["foo"]`
with `touched_symbols = ["bar"]` yields a symbols-mismatch error, and
with `touched_symbols = ["foo"]` it does not. -/
theorem gate_symbols_mismatch_rule_check :
    "symbols_mismatch" ∈ validate_explanation
      (.jObj [("touched_symbols", .jArr [.jStr "bar"])])
      (.jObj [("added_defs", .jArr [.jStr "foo"])]) ∧
    "symbols_mismatch" ∉ validate_explanation
      (.jObj [("touched_symbols", .jArr [.jStr "foo"])])
      (.jObj [("added_defs", .jArr [.jStr "foo"])]) := by
  constructor
  · exact (gate_symbols_mismatch_rule
      (.jObj [("touched_symbols", .jArr [.jStr "bar"])])
      (.jObj [("added_defs", .jArr [.jStr "foo"])])).1 (by decide) (by decide)
  · exact (gate_symbols_mismatch_rule
      (.jObj [("touched_symbols", .jArr [.jStr "foo"])])
      (.jObj [("added_defs", .jArr [.jStr "foo"])])).2 ⟨"foo", by decide, by decide⟩

/-! ## C8: the explainer's output always satisfies the gate -/

/-- Word-count bound for the explainer's `why` shape: each fixed
segment after the first starts with a non-alphanumeric character, so
its words never merge with the surrounding variable text; the fixed
segments alone contribute 15 words. -/
theorem wcAux_why_chain (i a b h f s1 s2 s3 s4 s5 s6 : List Char)
    (h1 : wcAux false s1 = 2) (h1f : finalInWord false s1 = false)
    (h2 : ∀ c, wcAux c s2 = 2 ∧ finalInWord c s2 = false)
    (h3 : ∀ c, wcAux c s3 = 2 ∧ finalInWord c s3 = false)
    (h4 : ∀ c, wcAux c s4 = 2 ∧ finalInWord c s4 = false)
    (h5 : ∀ c, wcAux c s5 = 2 ∧ finalInWord c s5 = false)
    (h6 : ∀ c, wcAux c s6 = 5) :
    15 ≤ wcAux false
      (s1 ++ (i ++ (s2 ++ (a ++ (s3 ++ (b ++ (s4 ++ (h ++ (s5 ++ (f ++ s6)))))))))) := by
  rw [wcAux_append, h1, h1f,
      wcAux_append,
      wcAux_append, (h2 (finalInWord false i)).1, (h2 (finalInWord false i)).2,
      wcAux_append,
      wcAux_append, (h3 (finalInWord false a)).1, (h3 (finalInWord false a)).2,
      wcAux_append,
      wcAux_append, (h4 (finalInWord false b)).1, (h4 (finalInWord false b)).2,
      wcAux_append,
      wcAux_append, (h5 (finalInWord false h)).1, (h5 (finalInWord false h)).2,
      wcAux_append, h6 (finalInWord false f)]
  omega

/-- The synthesised `why` always has at least 15 words, whatever the
intent, symbol lists, diff hash and file name contribute. -/
theorem word_count_explainerWhy_ge (r : Report) :
    15 ≤ word_count (explainerWhy r) := by
  unfold word_count explainerWhy
  simp only [String.data_append, List.append_assoc]
  exact wcAux_why_chain _ _ _ _ _ _ _ _ _ _ _
    (by decide) (by decide)
    (fun c => by cases c <;> exact ⟨by decide, by decide⟩)
    (fun c => by cases c <;> exact ⟨by decide, by decide⟩)
    (fun c => by cases c <;> exact ⟨by decide, by decide⟩)
    (fun c => by cases c <;> exact ⟨by decide, by decide⟩)
    (fun c => by cases c <;> decide)

/-- The head of a nonempty list stays in its `take (n+1)` capping. -/
theorem head_mem_take_cons {α : Type} (x : α) (xs : List α) (n : Nat) :
    x ∈ (x :: xs).take (n + 1) := by
  simp [List.take_succ_cons]

/-- C8: for every built report, the explainer's generated explanation
passes gate validation against that same report's symbol delta with no
errors: the word minimums hold, `touched_symbols` is an array of the
capped added/removed names, and whenever the delta is nonempty at
least one delta name appears in `touched_symbols`. -/
theorem explainer_output_passes_gate (r : Report) :
    validate_explanation (generate_explanation r) (ast_delta_json r) = [] := by
  have hwhy : fieldErrors (generate_explanation r) "why" 15 = [] := by
    have hge := word_count_explainerWhy_ge r
    simp [fieldErrors, generate_explanation, jGet, jLookup]
    omega
  have hrj : jGet (generate_explanation r) "risk" = some (.jStr riskBoilerplate) := by
    simp [generate_explanation, jGet, jLookup]
  have hbj : jGet (generate_explanation r) "backout" = some (.jStr backoutBoilerplate) := by
    simp [generate_explanation, jGet, jLookup]
  have htj : jGet (generate_explanation r) "tests" = some (.jStr testsBoilerplate) := by
    simp [generate_explanation, jGet, jLookup]
  have hxj : jGet (generate_explanation r) "touched_symbols" =
      some (.jArr ((explainerTouched r).map .jStr)) := by
    simp [generate_explanation, jGet, jLookup]
  have hr : fieldErrors (generate_explanation r) "risk" 5 = [] := by
    simp only [fieldErrors, hrj]
    rw [if_neg (by decide)]
  have hb : fieldErrors (generate_explanation r) "backout" 5 = [] := by
    simp only [fieldErrors, hbj]
    rw [if_neg (by decide)]
  have ht : fieldErrors (generate_explanation r) "tests" 1 = [] := by
    simp only [fieldErrors, htj]
    rw [if_neg (by decide)]
  have htouch : touchedSymbolsErrors (generate_explanation r) = [] := by
    simp only [touchedSymbolsErrors, hxj]
  have haj : jGet (ast_delta_json r) "added_defs" =
      some (.jArr (r.added_defs.map .jStr)) := by
    simp [ast_delta_json, jGet, jLookup]
  have hrjd : jGet (ast_delta_json r) "removed_defs" =
      some (.jArr (r.removed_defs.map .jStr)) := by
    simp [ast_delta_json, jGet, jLookup]
  have hsm : symbolsMismatchErrors (generate_explanation r) (ast_delta_json r) = [] := by
    unfold symbolsMismatchErrors
    rw [haj, hrjd, hxj, jStrings_map_jStr, jStrings_map_jStr, jStrings_map_jStr]
    rcases ha : r.added_defs with _ | ⟨x, xs⟩
    · rcases hrem : r.removed_defs with _ | ⟨y, ys⟩
      · simp
      · have hy : y ∈ explainerTouched r := by
          unfold explainerTouched
          rw [ha, hrem]
          simp only [List.take_nil, List.nil_append, List.length_nil]
          exact head_mem_take_cons y ys 11
        have hany : ((([] : List String) ++ y :: ys).any
            (fun c => (explainerTouched r).contains c)) = true := by
          refine List.any_eq_true.mpr ⟨y, ?_, ?_⟩
          · simp
          · simpa [List.contains] using hy
        simp only [hany]
        simp
    · have hx : x ∈ explainerTouched r := by
        unfold explainerTouched
        rw [ha]
        exact List.mem_append_left _ (head_mem_take_cons x xs 11)
      have hany : (((x :: xs) ++ r.removed_defs).any
          (fun c => (explainerTouched r).contains c)) = true := by
        refine List.any_eq_true.mpr ⟨x, ?_, ?_⟩
        · simp
        · simpa [List.contains] using hx
      simp only [hany]
      simp
  simp [validate_explanation, hwhy, hr, hb, ht, htouch, hsm]

/-! ## C2: the path sandbox -/

/-- C2: `validate_path` succeeds exactly on nonempty relative paths
with no `.`/`..` component that canonicalise to a nonempty
non-escaping descendant of the allowed root with no symlinked
component beneath it; and every validation failure aborts
`apply_change` with a `SandboxViolation` before any file is touched
(the returned state carries the caller's filesystem unchanged and no
lock acquired). -/
theorem validate_path_correct (p : PathArg) :
    (validate_path p = .ok () ↔
      (p.raw ≠ "" ∧ p.isAbsolute = false ∧
       (∀ c ∈ p.comps, ¬(c = ".." ∨ c = ".")) ∧
       ∃ rel, p.resolve = some rel ∧ rel ≠ [] ∧ relEscapes rel = false ∧
         ∀ q ∈ prefixesNE rel, p.symlink q = false))
    ∧ (∀ e, validate_path p = .error e →
        ∀ (w : World) (nc a i : String) (ex : Option JsonVal) (flt : Faults) (st0 : PState),
          is_tripped w = false →
          apply_change w p nc a i ex flt st0 =
            (.error (.sandbox e), { st0 with mutexHeld := false })) := by
  constructor
  · constructor
    · intro h
      by_cases h1 : p.raw = ""
      · have hv : validate_path p = .error .emptyPath := by simp [validate_path, h1]
        rw [hv] at h; simp at h
      cases habs : p.isAbsolute with
      | true =>
        have hv : validate_path p = .error .absolutePath := by
          simp [validate_path, h1, habs]
        rw [hv] at h; simp at h
      | false =>
      cases hany : p.comps.any (fun c => c == ".." || c == ".") with
      | true =>
        have hv : validate_path p = .error .traversal := by
          simp [validate_path, h1, habs, hany]
        rw [hv] at h; simp at h
      | false =>
      rcases hres : p.resolve with _ | rel
      · have hv : validate_path p = .error .canonFail := by
          simp [validate_path, h1, habs, hany, hres]
        rw [hv] at h; simp at h
      cases hempt : rel.isEmpty with
      | true =>
        have hv : validate_path p = .error .outsideRoot := by
          simp [validate_path, h1, habs, hany, hres, hempt]
        rw [hv] at h; simp at h
      | false =>
      cases hesc : relEscapes rel with
      | true =>
        have hv : validate_path p = .error .outsideRoot := by
          simp [validate_path, h1, habs, hany, hres, hempt, hesc]
        rw [hv] at h; simp at h
      | false =>
      cases hsyml : (prefixesNE rel).any p.symlink with
      | true =>
        have hv : validate_path p = .error .symlinkComp := by
          simp [validate_path, h1, habs, hany, hres, hempt, hesc, hsyml]
        rw [hv] at h; simp at h
      | false =>
      refine ⟨h1, rfl, ?_, rel, rfl, ?_, hesc, ?_⟩
      · intro c hc hor
        have : p.comps.any (fun c => c == ".." || c == ".") = true := by
          refine List.any_eq_true.mpr ⟨c, hc, ?_⟩
          rcases hor with hcc | hcc
          · simp [hcc]
          · simp [hcc]
        rw [this] at hany
        exact absurd hany (by simp)
      · intro hnil
        rw [hnil] at hempt
        simp at hempt
      · intro q hq
        cases hsq : p.symlink q with
        | false => rfl
        | true =>
          have : (prefixesNE rel).any p.symlink = true :=
            List.any_eq_true.mpr ⟨q, hq, hsq⟩
          rw [this] at hsyml
          exact absurd hsyml (by simp)
    · rintro ⟨hne, habs, hdots, rel, hres, hrelne, hesc, hsym⟩
      have hanyf : p.comps.any (fun c => c == ".." || c == ".") = false := by
        cases hr : p.comps.any (fun c => c == ".." || c == ".") with
        | false => rfl
        | true =>
          obtain ⟨c, hc, hcb⟩ := List.any_eq_true.mp hr
          have hor : c = ".." ∨ c = "." := by
            rcases Bool.or_eq_true_iff.mp hcb with hb | hb
            · left; exact eq_of_beq hb
            · right; exact eq_of_beq hb
          exact absurd hor (hdots c hc)
      have hsymf : (prefixesNE rel).any p.symlink = false := by
        cases hr : (prefixesNE rel).any p.symlink with
        | false => rfl
        | true =>
          obtain ⟨q, hq, hsq⟩ := List.any_eq_true.mp hr
          rw [hsym q hq] at hsq
          exact absurd hsq (by simp)
      have hempt : rel.isEmpty = false := by
        cases rel with
        | nil => exact absurd rfl hrelne
        | cons a as => rfl
      simp [validate_path, hne, habs, hanyf, hres, hempt, hesc, hsymf]
  · intro e he w nc a i ex flt st0 htrip
    have hplan : plan_change w p nc a i ex st0.fs = .error (.sandbox e) := by
      simp [plan_change, htrip, he]
    simp [apply_change, hplan]

/-- Witness for C2 at concrete paths: a benign relative path
validates, and `apply_change` on a traversal path fails with the
sandbox violation leaving the state untouched apart from the released
mutex. -/
theorem validate_path_correct_check :
    validate_path { raw := "src/main.cpp", comps := ["src", "main.cpp"],
                    resolve := some ["src", "main.cpp"] } = .ok () ∧
    apply_change {} { raw := "../etc/passwd", comps := ["..", "etc", "passwd"] }
        "x" "a" "i" none {} { fs := [] } =
      (.error (.sandbox .traversal), { fs := [], mutexHeld := false }) := by
  constructor
  · exact (validate_path_correct
      { raw := "src/main.cpp", comps := ["src", "main.cpp"],
        resolve := some ["src", "main.cpp"] }).1.mpr
      ⟨by decide, rfl, by decide, ["src", "main.cpp"], rfl, by decide, by decide,
       fun q hq => rfl⟩
  · exact (validate_path_correct
      { raw := "../etc/passwd", comps := ["..", "etc", "passwd"] }).2
      .traversal rfl {} "x" "a" "i" none {} { fs := [] } rfl

/-! ## C1: the atomic writer is all-or-nothing -/

/-- Unlinking the temporary file after creating it restores the view
of a filesystem that did not contain it. -/
theorem getFile_cleanup1 (fs : FS) (tmp x q : String)
    (hfresh : getFile fs tmp = none) :
    getFile (removeFile (setFile fs tmp x) tmp) q = getFile fs q := by
  rw [getFile_removeFile, getFile_setFile]
  by_cases hq : tmp = q
  · subst hq; simp [hfresh]
  · simp [hq]

/-- Same, after the temporary file was written twice (created empty,
then filled). -/
theorem getFile_cleanup2 (fs : FS) (tmp x y q : String)
    (hfresh : getFile fs tmp = none) :
    getFile (removeFile (setFile (setFile fs tmp x) tmp y) tmp) q = getFile fs q := by
  rw [getFile_removeFile, getFile_setFile, getFile_setFile]
  by_cases hq : tmp = q
  · subst hq; simp [hfresh]
  · simp [hq]

/-- C1: for every filesystem, target, content and injected fault,
`write_atomic` either succeeds leaving the target with exactly the new
content and every other file (the temporary included) unchanged, or
fails leaving every file — target and temporary included — exactly as
before.  The hypotheses state `mkstemp`'s guarantee: the temporary
name is fresh and distinct from the target. -/
theorem write_atomic_all_or_nothing (fs : FS) (path content tmp : String)
    (f : Faults) (_hne : tmp ≠ path) (hfresh : getFile fs tmp = none) :
    ((write_atomic fs path content tmp f).2 = none →
      ∀ q, getFile (write_atomic fs path content tmp f).1 q =
        if q = path then some content else getFile fs q) ∧
    (∀ m, (write_atomic fs path content tmp f).2 = some m →
      ∀ q, getFile (write_atomic fs path content tmp f).1 q = getFile fs q) := by
  constructor
  · intro hs q
    by_cases h1 : f.mkstempFail = true
    · simp [write_atomic, h1] at hs
    by_cases h2 : f.chmodFail = true
    · simp [write_atomic, h1, h2] at hs
    by_cases h3 : f.writeFail = true
    · simp [write_atomic, h1, h2, h3] at hs
    by_cases h4 : f.fsyncFail = true
    · simp [write_atomic, h1, h2, h3, h4] at hs
    by_cases h5 : f.renameFail = true
    · simp [write_atomic, h1, h2, h3, h4, h5] at hs
    simp only [write_atomic, h1, h2, h3, h4, h5, Bool.not_eq_true] at hs ⊢
    simp only [if_neg (by simp : ¬(false = true))]
    rw [getFile_setFile]
    by_cases hqp : q = path
    · simp [hqp]
    · rw [if_neg (fun hh => hqp hh.symm), if_neg hqp,
          getFile_cleanup2 fs tmp "" content q hfresh]
  · intro m hm q
    by_cases h1 : f.mkstempFail = true
    · simp [write_atomic, h1]
    by_cases h2 : f.chmodFail = true
    · simp only [write_atomic, h1, h2, Bool.not_eq_true]
      simp only [if_neg (by simp : ¬(false = true)), if_pos rfl]
      exact getFile_cleanup1 fs tmp "" q hfresh
    by_cases h3 : f.writeFail = true
    · simp only [write_atomic, h1, h2, h3, Bool.not_eq_true]
      simp only [if_neg (by simp : ¬(false = true)), if_pos rfl]
      exact getFile_cleanup2 fs tmp "" f.writeFailData q hfresh
    by_cases h4 : f.fsyncFail = true
    · simp only [write_atomic, h1, h2, h3, h4, Bool.not_eq_true]
      simp only [if_neg (by simp : ¬(false = true)), if_pos rfl]
      exact getFile_cleanup2 fs tmp "" content q hfresh
    by_cases h5 : f.renameFail = true
    · simp only [write_atomic, h1, h2, h3, h4, h5, Bool.not_eq_true]
      simp only [if_neg (by simp : ¬(false = true)), if_pos rfl]
      exact getFile_cleanup2 fs tmp "" content q hfresh
    · simp [write_atomic, h1, h2, h3, h4, h5] at hm

/-- Witness for C1 at a concrete run: with no fault the target holds
the new content and the temporary is gone; with an injected write
fault the target keeps its original content and the temporary is
gone. -/
theorem write_atomic_all_or_nothing_check :
    getFile (write_atomic [("a.txt", "old")] "a.txt" "new" "a.txt.X1" {}).1 "a.txt" = some "new" ∧
    getFile (write_atomic [("a.txt", "old")] "a.txt" "new" "a.txt.X1" {}).1 "a.txt.X1" = none ∧
    getFile (write_atomic [("a.txt", "old")] "a.txt" "new" "a.txt.X1"
        { writeFail := true, writeFailData := "ne" }).1 "a.txt" = some "old" ∧
    getFile (write_atomic [("a.txt", "old")] "a.txt" "new" "a.txt.X1"
        { writeFail := true, writeFailData := "ne" }).1 "a.txt.X1" = none := by
  refine ⟨?_, ?_, ?_, ?_⟩
  · have h := (write_atomic_all_or_nothing [("a.txt", "old")] "a.txt" "new" "a.txt.X1"
      {} (by decide) (by decide)).1 (by decide) "a.txt"
    simpa using h
  · have h := (write_atomic_all_or_nothing [("a.txt", "old")] "a.txt" "new" "a.txt.X1"
      {} (by decide) (by decide)).1 (by decide) "a.txt.X1"
    simpa using h
  · have h := (write_atomic_all_or_nothing [("a.txt", "old")] "a.txt" "new" "a.txt.X1"
      { writeFail := true, writeFailData := "ne" } (by decide) (by decide)).2
      "Write to temporary file failed" (by decide) "a.txt"
    simpa using h
  · have h := (write_atomic_all_or_nothing [("a.txt", "old")] "a.txt" "new" "a.txt.X1"
      { writeFail := true, writeFailData := "ne" } (by decide) (by decide)).2
      "Write to temporary file failed" (by decide) "a.txt.X1"
    simpa using h

/-! ## C4: the kill switch halts the pipeline untouched -/

/-- C4: whenever the kill switch is tripped (`COCKPIT_EVOLVE` set to
`"off"` or the sentinel file exists), `apply_change` fails with
`Halted` for every path, content, author, intent and explanation, and
the returned state carries the caller's filesystem verbatim — no file
under the root is modified and no report file is created — with no
lock acquired beyond the released mutex. -/
theorem kill_switch_halts_apply (w : World) (p : PathArg) (nc a i : String)
    (ex : Option JsonVal) (flt : Faults) (st0 : PState)
    (h : is_tripped w = true) :
    apply_change w p nc a i ex flt st0 =
      (.error .halted, { st0 with mutexHeld := false }) := by
  have hplan : plan_change w p nc a i ex st0.fs = .error .halted := by
    simp [plan_change, h]
  simp [apply_change, hplan]

/-- Witness for C4: with `COCKPIT_EVOLVE=off` the concrete call halts
and the filesystem is returned unchanged. -/
theorem kill_switch_halts_apply_check :
    apply_change { cockpitEvolve := some "off" }
        { raw := "a.txt", comps := ["a.txt"], resolve := some ["a.txt"] }
        "v1" "me" "tidy" none {} { fs := [("a.txt", "v0")] } =
      (.error .halted, { fs := [("a.txt", "v0")], mutexHeld := false }) :=
  kill_switch_halts_apply { cockpitEvolve := some "off" }
    { raw := "a.txt", comps := ["a.txt"], resolve := some ["a.txt"] }
    "v1" "me" "tidy" none {} { fs := [("a.txt", "v0")] } (by decide)

/-! ## C5: a risk veto rejects the change untouched -/

/-- C5: when the pipeline reaches the risk engine (the kill switch is
not tripped and the path validates) and the engine returns
`recommend_allow = false`, `apply_change` fails with a `RiskRejected`
error carrying the engine's reasoning text, and the returned state
carries the caller's filesystem verbatim — the target file is
unchanged and no report is persisted. -/
theorem risk_veto_rejects_apply (w : World) (p : PathArg) (nc a i : String)
    (ex : Option JsonVal) (flt : Faults) (st0 : PState)
    (htrip : is_tripped w = false)
    (hpath : validate_path p = .ok ())
    (hveto : w.risk.recommend_allow = false) :
    apply_change w p nc a i ex flt st0 =
      (.error (.riskRejected w.risk.reasoning), { st0 with mutexHeld := false }) := by
  have hplan : plan_change w p nc a i ex st0.fs = .error (.riskRejected w.risk.reasoning) := by
    simp [plan_change, htrip, hpath, hveto]
  simp [apply_change, hplan]

/-- Witness for C5: a concrete vetoed change is rejected with the
engine's reasoning and the filesystem is returned unchanged. -/
theorem risk_veto_rejects_apply_check :
    apply_change { risk := { recommend_allow := false, reasoning := "too clever" } }
        { raw := "a.txt", comps := ["a.txt"], resolve := some ["a.txt"] }
        "v1" "me" "tidy" none {} { fs := [("a.txt", "v0")] } =
      (.error (.riskRejected "too clever"), { fs := [("a.txt", "v0")], mutexHeld := false }) :=
  risk_veto_rejects_apply { risk := { recommend_allow := false, reasoning := "too clever" } }
    { raw := "a.txt", comps := ["a.txt"], resolve := some ["a.txt"] }
    "v1" "me" "tidy" none {} { fs := [("a.txt", "v0")] }
    (by decide) rfl (by decide)

/-! ## C3: lock release discipline -/

/-- The pre-lock stages never raise an `IoError`: their failures are
`Halted`, `SandboxViolation`, `RiskRejected`, `PolicyRejected` or
`ExplanationInvalid`. -/
theorem plan_change_no_ioError (w : World) (p : PathArg) (nc a i : String)
    (ex : Option JsonVal) (fs : FS) (e : AppError)
    (h : plan_change w p nc a i ex fs = .error e) : ∀ m, e ≠ .ioError m := by
  intro m hm
  subst hm
  simp only [plan_change] at h
  repeat' split at h
  all_goals simp at h

/-- Lock bookkeeping of the write/persist phase: the mutex is released
at every return, the file lock is released on success, and on any
write or persistence failure both lock fields keep the acquisition
value. -/
theorem commit_write_locks (w : World) (raw nc cd : String) (fs2 : FS)
    (snap : String) (r2 : Report) (flt : Faults) (lockValid : Bool)
    (res : Except AppError ApplyResult) (st1 : PState)
    (h : commit_write w raw nc cd fs2 snap r2 flt lockValid = (res, st1)) :
    st1.mutexHeld = false ∧
    (∀ v, res = .ok v → st1.fileLockHeld = false) ∧
    (∀ m, res = .error (.ioError m) →
      st1.lockFdValid = lockValid ∧ st1.fileLockHeld = lockValid) := by
  simp only [commit_write] at h
  repeat' split at h
  all_goals injection h with h1 h2
  all_goals subst h1
  all_goals subst h2
  · exact ⟨rfl, fun v hv => by simp at hv, fun m hm => ⟨rfl, rfl⟩⟩
  · exact ⟨rfl, fun v hv => by simp at hv, fun m hm => ⟨rfl, rfl⟩⟩
  · exact ⟨rfl, fun v hv => rfl, fun m hm => by simp at hm⟩

/-- Lock bookkeeping of the whole locked phase: the mutex is released
at every return, the file lock is released on success, and on any
`IoError` other than the `flock` acquisition failure the file lock is
still held whenever the lock descriptor was valid. -/
theorem commit_change_locks (w : World) (raw nc old : String) (r1 : Report)
    (flt : Faults) (st : PState) (res : Except AppError ApplyResult) (st1 : PState)
    (h : commit_change w raw nc old r1 flt st = (res, st1)) :
    st1.mutexHeld = false ∧
    (∀ v, res = .ok v → st1.fileLockHeld = false) ∧
    (∀ m, res = .error (.ioError m) →
      m ≠ "Failed to acquire cross-process lock" →
      st1.lockFdValid = true → st1.fileLockHeld = true) := by
  simp only [commit_change] at h
  repeat' split at h
  all_goals first
    | (obtain ⟨hmx, hok, hio⟩ := commit_write_locks _ _ _ _ _ _ _ _ _ _ _ h
       refine ⟨hmx, hok, ?_⟩
       intro m hm hne hfd
       rcases hio m hm with ⟨h1, h2⟩
       rw [h2, ← h1, hfd])
    | (injection h with h1 h2
       subst h1
       subst h2
       refine ⟨rfl, ?_, ?_⟩
       · intro v hv
         simp at hv
       · intro m hm hne hfd
         first
           | exact hfd
           | (simp at hm; subst hm; exact absurd rfl hne))

/-- C3 (amended): on every run of `apply_change`, the in-process mutex
is released on every exit path, and the cross-process file lock is
released on the success path; but contrary to the original claim, on a
snapshot, atomic-write or persistence failure after acquisition the
file lock is NOT released — it is still held when the error
propagates (the code has no scoped guard on the `flock`; only the
success path calls `LOCK_UN`). -/
theorem locks_release_discipline (w : World) (p : PathArg) (nc a i : String)
    (ex : Option JsonVal) (flt : Faults) (st0 : PState)
    (res : Except AppError ApplyResult) (st1 : PState)
    (h : apply_change w p nc a i ex flt st0 = (res, st1)) :
    st1.mutexHeld = false ∧
    (∀ v, res = .ok v → st1.fileLockHeld = false) ∧
    (∀ m, res = .error (.ioError m) →
      m ≠ "Failed to acquire cross-process lock" →
      st1.lockFdValid = true → st1.fileLockHeld = true) := by
  simp only [apply_change] at h
  rcases hplan : plan_change w p nc a i ex st0.fs with e | r1
  · simp only [hplan] at h
    injection h with h1 h2
    subst h1
    subst h2
    refine ⟨rfl, ?_, ?_⟩
    · intro v hv
      simp at hv
    · intro m hm hne hfd
      injection hm with he
      exact absurd he (plan_change_no_ioError w p nc a i ex st0.fs e hplan m)
  · simp only [hplan] at h
    exact commit_change_locks w p.raw nc ((getFile st0.fs p.raw).getD "") r1 flt
      { st0 with mutexHeld := true } res st1 h

set_option maxRecDepth 100000 in
/-- Witness for C3's amended theorem at a concrete successful run:
both locks end released. -/
theorem locks_release_discipline_check :
    ((apply_change {} { raw := "a.txt", comps := ["a.txt"], resolve := some ["a.txt"] }
        "v1" "me" "tidy" none {} { fs := [("a.txt", "v0")] }).2).mutexHeld = false ∧
    ((apply_change {} { raw := "a.txt", comps := ["a.txt"], resolve := some ["a.txt"] }
        "v1" "me" "tidy" none {} { fs := [("a.txt", "v0")] }).2).fileLockHeld = false := by
  have h := locks_release_discipline {}
    { raw := "a.txt", comps := ["a.txt"], resolve := some ["a.txt"] }
    "v1" "me" "tidy" none {} { fs := [("a.txt", "v0")] }
    (apply_change {} { raw := "a.txt", comps := ["a.txt"], resolve := some ["a.txt"] }
      "v1" "me" "tidy" none {} { fs := [("a.txt", "v0")] }).1
    (apply_change {} { raw := "a.txt", comps := ["a.txt"], resolve := some ["a.txt"] }
      "v1" "me" "tidy" none {} { fs := [("a.txt", "v0")] }).2
    rfl
  exact ⟨h.1, h.2.1 _ (by rfl)⟩

set_option maxRecDepth 100000 in
/-- Counterexample to C3 as stated: a run whose snapshot copy fails
after the file lock was acquired propagates the `IoError` with the
cross-process file lock still held (only the in-process mutex is
released) — the locks are not released on every exit path. -/
theorem file_lock_leak_on_snapshot_failure :
    (apply_change {} { raw := "a.txt", comps := ["a.txt"], resolve := some ["a.txt"] }
        "v1" "me" "tidy" none { snapshotCopyFail := true } { fs := [("a.txt", "v0")] }).1 =
      .error (.ioError "snapshot copy_file failed") ∧
    ((apply_change {} { raw := "a.txt", comps := ["a.txt"], resolve := some ["a.txt"] }
        "v1" "me" "tidy" none { snapshotCopyFail := true } { fs := [("a.txt", "v0")] }).2).fileLockHeld
      = true ∧
    ((apply_change {} { raw := "a.txt", comps := ["a.txt"], resolve := some ["a.txt"] }
        "v1" "me" "tidy" none { snapshotCopyFail := true } { fs := [("a.txt", "v0")] }).2).mutexHeld
      = false := by
  refine ⟨rfl, by decide, by decide⟩

/-! ## C9: snapshots are not write-once -/

set_option maxRecDepth 400000 in
/-- Counterexample to C9 as stated: two successive successful
`apply_change` calls from the same process on the same file write
their snapshots to the same path
(`<snap_dir>/<filename>.<pid>.bak`), and the second call overwrites
the first call's snapshot: its content changes from the first old
content (`"v0"`) to the second (`"v1"`). -/
theorem snapshot_overwritten_same_process :
    getFile ((apply_change { pid := "7" }
        { raw := "a.txt", comps := ["a.txt"], resolve := some ["a.txt"] }
        "v1" "me" "tidy" none {} { fs := [("a.txt", "v0")] }).2).fs
      "logs/changes/snapshots/a.txt.7.bak" = some "v0" ∧
    getFile ((apply_change { pid := "7" }
        { raw := "a.txt", comps := ["a.txt"], resolve := some ["a.txt"] }
        "v2" "me" "tidy" none {}
        ((apply_change { pid := "7" }
            { raw := "a.txt", comps := ["a.txt"], resolve := some ["a.txt"] }
            "v1" "me" "tidy" none {} { fs := [("a.txt", "v0")] }).2)).2).fs
      "logs/changes/snapshots/a.txt.7.bak" = some "v1" := by
  exact ⟨by decide, by decide⟩

/-- C9 (amended): the snapshot destination is a pure function of the
snapshot directory, the target's base filename and the process id —
it carries no timestamp or sequence number — and `snapshot_file`
copies with `overwrite_existing`: even when a file already exists at
that destination, the copy proceeds to the same path and replaces its
content.  Hence snapshots are write-once only across distinct
basenames or process ids; repeated applies from one process to one
file reuse and overwrite the same snapshot file. -/
theorem snapshot_path_reuse_overwrites (fs : FS) (src snapDir pid c old : String)
    (hsrc : getFile fs src = some c)
    (_hdst : getFile fs (snapshot_dst snapDir (lastComponent src) pid) = some old) :
    snapshot_file fs src snapDir pid false =
      .ok (setFile fs (snapshot_dst snapDir (lastComponent src) pid) c,
           snapshot_dst snapDir (lastComponent src) pid) ∧
    getFile (setFile fs (snapshot_dst snapDir (lastComponent src) pid) c)
      (snapshot_dst snapDir (lastComponent src) pid) = some c := by
  constructor
  · simp [snapshot_file, hsrc]
  · simp [getFile_setFile]

/-- Witness for C9's amended theorem: with a previous snapshot
(`"v0"`) already at the destination, the copy targets the same path
and afterwards the destination holds the fresh content (`"v1"`). -/
theorem snapshot_path_reuse_overwrites_check :
    snapshot_file [("a.txt", "v1"), ("snaps/a.txt.7.bak", "v0")] "a.txt" "snaps" "7" false =
      .ok ([("snaps/a.txt.7.bak", "v1"), ("a.txt", "v1"), ("snaps/a.txt.7.bak", "v0")],
           "snaps/a.txt.7.bak") ∧
    getFile [("snaps/a.txt.7.bak", "v1"), ("a.txt", "v1"), ("snaps/a.txt.7.bak", "v0")]
      "snaps/a.txt.7.bak" = some "v1" := by
  have h := snapshot_path_reuse_overwrites
    [("a.txt", "v1"), ("snaps/a.txt.7.bak", "v0")] "a.txt" "snaps" "7" "v1" "v0"
    (by decide) (by decide)
  exact ⟨h.1, h.2⟩

end Cockpit
